import Mathlib

/-
Verification of ublox-gnss-streamer-py against its specification.

Shallow embedding of:
  * src/ublox_gnss_streamer/utils/threadsafe_deque.py   (ThreadSafeDeque)
  * src/ublox_gnss_streamer/gnss_extrapolator/gnss_extrapolator.py
  * src/ublox_gnss_streamer/ublox_gnss_worker.py        (GNGGA ingest)
  * src/ublox_gnss_streamer/gnss_extrapolator_worker.py
  * src/ublox_gnss_streamer/ntrip_client_worker.py      (NMEA relay)
  * src/ublox_gnss_streamer/tcp_publisher/tcp_publisher.py (send_to_all)

Python floats are modelled as real numbers, Python dicts carrying GNSS fixes
as a structure with Option-valued fields (a key that may be absent or hold
None is modelled as an Option field; the two cases are conflated, which is
faithful at every point where this development reads such a field).
-/

set_option maxHeartbeats 1000000

namespace GnssStreamer

/-! ## Bounded deque model (collections.deque / ThreadSafeDeque)

A `collections.deque(maxlen=m)` is modelled as a `List`, head = left end.
`bpush` is `deque.append`: append on the right, and when a maxlen is set,
drop elements from the left until the length is within the bound (for a
full deque this discards exactly the oldest element, as CPython does). -/

def bpush (maxlen : Option Nat) (q : List α) (x : α) : List α :=
  let q2 := q ++ [x]
  match maxlen with
  | none => q2
  | some m => q2.drop (q2.length - m)

/-- `ThreadSafeDeque.popleft`: returns the leftmost item, or Python `None`
when the deque is empty, together with the remaining queue. Items live in
`Option β` so that a stored Python `None` is representable: the popped value
is returned as-is, hence a stored `None` yields the same result as an empty
queue. The function is total: it never raises and never blocks. -/
def popleftPy (q : List (Option β)) : Option β × List (Option β) :=
  match q with
  | [] => (none, [])
  | x :: xs => (x, xs)

/-- One operation on a `ThreadSafeDeque`. -/
inductive QOp (α : Type) where
  | push (x : α)
  | pop

/-- Effect of one operation on the queue content: `append` is the bounded
push; `popleft` removes the leftmost element and leaves an empty queue
unchanged (it returns `None` there). -/
def qstep (cap : Nat) (q : List α) : QOp α → List α
  | .push x => bpush (some cap) q x
  | .pop => q.tail

/-- Queue content after running a sequence of operations from empty. -/
def qrun (cap : Nat) (ops : List (QOp α)) : List α :=
  ops.foldl (qstep cap) []

/-- The values pushed by a sequence of operations, in order. -/
def pushedVals : List (QOp α) → List α
  | [] => []
  | .push x :: rest => x :: pushedVals rest
  | .pop :: rest => pushedVals rest

lemma length_bpush_le (cap : Nat) (q : List α) (x : α) :
    (bpush (some cap) q x).length ≤ cap := by
  simp only [bpush, List.length_drop]
  omega

lemma bpush_eq_drop (cap : Nat) (q : List α) (x : α) :
    bpush (some cap) q x = (q ++ [x]).drop ((q ++ [x]).length - cap) := rfl

lemma qrun_length_aux (cap : Nat) (ops : List (QOp α)) :
    ∀ q : List α, q.length ≤ cap → (List.foldl (qstep cap) q ops).length ≤ cap := by
  induction ops with
  | nil => intro q hq; simpa using hq
  | cons op rest ih =>
    intro q hq
    cases op with
    | push x =>
      exact ih (bpush (some cap) q x) (length_bpush_le cap q x)
    | pop =>
      refine ih q.tail ?_
      calc q.tail.length ≤ q.length := by simp
        _ ≤ cap := hq

lemma qrun_window_aux (cap : Nat) (ops : List (QOp α)) :
    ∀ q : List α, ∃ k, List.foldl (qstep cap) q ops = (q ++ pushedVals ops).drop k := by
  induction ops with
  | nil => intro q; exact ⟨0, by simp [pushedVals]⟩
  | cons op rest ih =>
    intro q
    cases op with
    | push x =>
      obtain ⟨k, hk⟩ := ih (bpush (some cap) q x)
      refine ⟨k + ((q ++ [x]).length - cap), ?_⟩
      have hm : (q ++ [x]).length - cap ≤ (q ++ [x]).length := by omega
      calc List.foldl (qstep cap) q (.push x :: rest)
          = List.foldl (qstep cap) (bpush (some cap) q x) rest := rfl
        _ = (bpush (some cap) q x ++ pushedVals rest).drop k := hk
        _ = (((q ++ [x]).drop ((q ++ [x]).length - cap)) ++ pushedVals rest).drop k := by
            rw [bpush_eq_drop]
        _ = (((q ++ [x]) ++ pushedVals rest).drop ((q ++ [x]).length - cap)).drop k := by
            rw [List.drop_append_of_le_length hm]
        _ = ((q ++ [x]) ++ pushedVals rest).drop (k + ((q ++ [x]).length - cap)) := by
            rw [List.drop_drop, Nat.add_comm]
        _ = (q ++ pushedVals (.push x :: rest)).drop (k + ((q ++ [x]).length - cap)) := by
            simp [pushedVals]
    | pop =>
      cases q with
      | nil =>
        obtain ⟨k, hk⟩ := ih ([] : List α)
        exact ⟨k, by simpa [qstep, pushedVals] using hk⟩
      | cons y ys =>
        obtain ⟨k, hk⟩ := ih ys
        refine ⟨k + 1, ?_⟩
        calc List.foldl (qstep cap) (y :: ys) (.pop :: rest)
            = List.foldl (qstep cap) ys rest := rfl
          _ = (ys ++ pushedVals rest).drop k := hk
          _ = (y :: ys ++ pushedVals (QOp.pop :: rest)).drop (k + 1) := by
              simp [pushedVals]

/-- Claim C3: a ThreadSafeDeque of capacity N never holds more than N items
under any sequence of append/popleft operations; an append onto a full queue
evicts only the oldest item and keeps the new one; and the surviving content
is always a suffix window of the pushed values in FIFO order. -/
theorem claim_C3 (cap : Nat) (ops : List (QOp α)) (q : List α) (x : α) :
    (qrun cap ops).length ≤ cap ∧
    (q.length = cap → 1 ≤ cap → bpush (some cap) q x = q.tail ++ [x]) ∧
    (∃ k, qrun cap ops = (pushedVals ops).drop k) := by
  refine ⟨qrun_length_aux cap ops [] (by simp), ?_, ?_⟩
  · intro hfull hpos
    rw [bpush_eq_drop]
    have hlen : (q ++ [x]).length - cap = 1 := by simp [hfull]
    rw [hlen]
    cases q with
    | nil => simp at hfull; omega
    | cons y ys => simp
  · obtain ⟨k, hk⟩ := qrun_window_aux cap ops ([] : List α)
    exact ⟨k, by simpa [qrun] using hk⟩

/-- Witness for C3 at capacity 2 with pushes 1,2,3 and one popleft. -/
theorem claim_C3_witness :
    bpush (some 2) [5, 6] 7 = [6, 7] ∧
    (qrun 2 [QOp.push 1, QOp.push 2, QOp.push 3, QOp.pop]).length ≤ 2 := by
  have h := claim_C3 2 [QOp.push 1, QOp.push 2, QOp.push 3, QOp.pop] [5, 6] 7
  exact ⟨h.2.1 (by decide) (by decide), h.1⟩

/-- Claim C10: popleft on an empty ThreadSafeDeque returns the `None`
sentinel without raising; popping a queue whose stored head is `None`
returns the very same sentinel, so a consumer cannot distinguish the two. -/
theorem claim_C10 (β : Type) (xs : List (Option β)) :
    popleftPy ([] : List (Option β)) = (none, []) ∧
    popleftPy (none :: xs) = (none, xs) ∧
    (popleftPy (none :: xs)).1 = (popleftPy ([] : List (Option β))).1 :=
  ⟨rfl, rfl, rfl⟩

/-! ## GnssExtrapolator (gnss_extrapolator.py)

The class holds two pyproj transformer objects built from EPSG:4979 (WGS84
geodetic) and EPSG:4978 (ECEF). pyproj is an external library, so the two
coordinate transforms are modelled as function fields of a `GeoBackend`;
theorems that need the documented fact that the two transformers are mutual
inverses take it as an explicit hypothesis at the points involved. -/

/-- The transformer pair of a `GnssExtrapolator`:
`lla_to_ecef lat lon height = (x, y, z)` models the method `lla_to_ecef`
(which calls `transformer_lla_to_ecef.transform(lon, lat, height)`), and
`ecef_to_lla (x, y, z) = (lat, lon, height)` models `ecef_to_lla`. -/
structure GeoBackend where
  lla_to_ecef : ℝ → ℝ → ℝ → ℝ × ℝ × ℝ
  ecef_to_lla : ℝ × ℝ × ℝ → ℝ × ℝ × ℝ

/-- `hmsl_mode` constructor argument (any other string behaves as `other`). -/
inductive HmslMode where
  | geoid
  | offset
  | other
deriving DecidableEq

/-- A GNSS fix dict. A key that may be absent (or hold Python None) is an
Option field; `timestamp`, `lat` and `lon` are accessed unconditionally by
the code, so they are plain fields. -/
structure Fix where
  timestamp : ℝ
  gnss_time : Option String
  lat : ℝ
  lon : ℝ
  height : Option ℝ
  hMSL : Option ℝ
  velE : Option ℝ
  velN : Option ℝ
  velD : Option ℝ
  quality : Option ℤ

/-- Mutable state of a `GnssExtrapolator` instance. -/
structure ExtState where
  geo : GeoBackend
  ref_lat : Option ℝ
  ref_lon : Option ℝ
  ref_height : Option ℝ
  ref_ecef : Option (ℝ × ℝ × ℝ)
  buffer : List Fix
  max_buffer : Nat
  transformers_initialized : Bool
  hmsl_mode : HmslMode
  geoid : Option (ℝ → ℝ → ℝ)
  geoid_offset : Option ℝ

/-- `GnssExtrapolator.__init__`: no reference point, empty ring buffer of
depth `max_buffer`. `geoidFn` models the external `GeoidHeight(...).height`
lookup, absent when pyproj has no GeoidHeight; it is only kept in geoid
mode, as in the source. -/
def initExt (geo : GeoBackend) (max_buffer : Nat) (hmsl_mode : HmslMode)
    (geoidFn : Option (ℝ → ℝ → ℝ)) : ExtState :=
  { geo := geo
    ref_lat := none
    ref_lon := none
    ref_height := none
    ref_ecef := none
    buffer := []
    max_buffer := max_buffer
    transformers_initialized := false
    hmsl_mode := hmsl_mode
    geoid := match hmsl_mode with
      | .geoid => geoidFn
      | _ => none
    geoid_offset := none }

/-- `GnssExtrapolator.add_fix`: on the first fix ever added, the reference
point and its ECEF vector are set from that fix (ellipsoid height defaulting
to 0 when absent); in offset mode the geoid offset is refreshed whenever the
fix carries both heights; the fix is appended to the bounded buffer. -/
def add_fix (st : ExtState) (f : Fix) : ExtState :=
  let st1 :=
    if st.ref_lat.isSome then st
    else
      { st with
        ref_lat := some f.lat
        ref_lon := some f.lon
        ref_height := some (f.height.getD 0)
        ref_ecef := some (st.geo.lla_to_ecef f.lat f.lon (f.height.getD 0))
        transformers_initialized := true }
  let st2 :=
    match st1.hmsl_mode, f.height, f.hMSL with
    | .offset, some h, some m => { st1 with geoid_offset := some (h - m) }
    | _, _, _ => st1
  { st2 with buffer := bpush (some st2.max_buffer) st2.buffer f }

/-- Running a whole sequence of `add_fix` calls. -/
def addFixes (st : ExtState) (fs : List Fix) : ExtState :=
  fs.foldl add_fix st

/-- `np.radians`. -/
noncomputable def radians (x : ℝ) : ℝ := x * Real.pi / 180

/-- The ENU rotation matrix of `lla_to_enu` applied to a delta-ECEF vector
(rows east, north, up, exactly the matrix `t` built in the source). -/
noncomputable def rotENU (phi lam : ℝ) (d : ℝ × ℝ × ℝ) : ℝ × ℝ × ℝ :=
  ( -Real.sin lam * d.1 + Real.cos lam * d.2.1 + 0 * d.2.2,
    -Real.sin phi * Real.cos lam * d.1 + -Real.sin phi * Real.sin lam * d.2.1
      + Real.cos phi * d.2.2,
    Real.cos phi * Real.cos lam * d.1 + Real.cos phi * Real.sin lam * d.2.1
      + Real.sin phi * d.2.2 )

/-- The inverse rotation matrix of `enu_to_lla` applied to an ENU vector
(the transpose of `rotENU`, exactly the matrix `t` built in `enu_to_lla`). -/
noncomputable def rotENUt (phi lam : ℝ) (v : ℝ × ℝ × ℝ) : ℝ × ℝ × ℝ :=
  ( -Real.sin lam * v.1 + -Real.sin phi * Real.cos lam * v.2.1
      + Real.cos phi * Real.cos lam * v.2.2,
    Real.cos lam * v.1 + -Real.sin phi * Real.sin lam * v.2.1
      + Real.cos phi * Real.sin lam * v.2.2,
    0 * v.1 + Real.cos phi * v.2.1 + Real.sin phi * v.2.2 )

def add3 (a b : ℝ × ℝ × ℝ) : ℝ × ℝ × ℝ := (a.1 + b.1, a.2.1 + b.2.1, a.2.2 + b.2.2)

def sub3 (a b : ℝ × ℝ × ℝ) : ℝ × ℝ × ℝ := (a.1 - b.1, a.2.1 - b.2.1, a.2.2 - b.2.2)

/-- `lla_to_enu`, with the reference point resolved. The Python method
raises when the reference is unset; `extrapolate` only reaches it after the
initialization guard, so the model takes the reference values directly. -/
noncomputable def lla_to_enu (geo : GeoBackend) (refLat refLon : ℝ)
    (refEcef : ℝ × ℝ × ℝ) (lat lon height : ℝ) : ℝ × ℝ × ℝ :=
  rotENU (radians refLat) (radians refLon) (sub3 (geo.lla_to_ecef lat lon height) refEcef)

/-- `enu_to_lla`, with the reference point resolved. -/
noncomputable def enu_to_lla (geo : GeoBackend) (refLat refLon : ℝ)
    (refEcef : ℝ × ℝ × ℝ) (e n u : ℝ) : ℝ × ℝ × ℝ :=
  geo.ecef_to_lla (add3 refEcef (rotENUt (radians refLat) (radians refLon) (e, n, u)))

/-- `ellipsoid_to_hmsl`. -/
def ellipsoid_to_hmsl (st : ExtState) (lat lon height : ℝ) : Option ℝ :=
  match st.hmsl_mode, st.geoid with
  | .geoid, some g => some (height - g lon lat)
  | _, _ =>
    match st.hmsl_mode, st.geoid_offset with
    | .offset, some off => some (height - off)
    | _, _ => none

/-- `GnssExtrapolator.extrapolate` with an explicit `target_time` (the
worker always passes one; the `None` default just substitutes the current
wall clock). Returns `none` for the unavailable result. For dt < 0 it
returns `last.copy()`, i.e. the last buffered fix itself in this immutable
model. States whose guard flag is set but whose reference fields are unset
are unreachable (`add_fix` sets them together); the model returns `none`
there, where the Python method would raise inside `lla_to_enu`. -/
noncomputable def extrapolate (st : ExtState) (target_time : ℝ) : Option Fix :=
  if st.transformers_initialized = false ∨ st.buffer.length < 2 then none
  else
    match st.buffer.reverse, st.ref_lat, st.ref_lon, st.ref_ecef with
    | last :: prev :: _, some refLat, some refLon, some refEcef =>
      let dt := target_time - last.timestamp
      if dt < 0 then some last
      else
        let enu1 := lla_to_enu st.geo refLat refLon refEcef last.lat last.lon
          (last.height.getD 0)
        let enu0 := lla_to_enu st.geo refLat refLon refEcef prev.lat prev.lon
          (prev.height.getD 0)
        let disp :=
          match last.velE, last.velN, last.velD with
          | some vE, some vN, some vD => (vE * dt, vN * dt, vD * dt)
          | _, _, _ =>
            let dt_pos := last.timestamp - prev.timestamp
            if dt_pos = 0 then ((0 : ℝ), (0 : ℝ), (0 : ℝ))
            else ((enu1.1 - enu0.1) / dt_pos * dt,
                  (enu1.2.1 - enu0.2.1) / dt_pos * dt,
                  (enu1.2.2 - enu0.2.2) / dt_pos * dt)
        let enuEx := add3 enu1 disp
        let r := enu_to_lla st.geo refLat refLon refEcef enuEx.1 enuEx.2.1 enuEx.2.2
        some { timestamp := target_time
               gnss_time := none
               lat := r.1
               lon := r.2.1
               height := some r.2.2
               hMSL := ellipsoid_to_hmsl st r.1 r.2.1 r.2.2
               velE := none
               velN := none
               velD := none
               quality := none }
    | _, _, _, _ => none

/-- The reference-point quadruple of an extrapolator state. -/
def refData (st : ExtState) : Option ℝ × Option ℝ × Option ℝ × Option (ℝ × ℝ × ℝ) :=
  (st.ref_lat, st.ref_lon, st.ref_height, st.ref_ecef)

lemma add_fix_ref_of_set (st : ExtState) (f : Fix) (h : st.ref_lat.isSome) :
    refData (add_fix st f) = refData st ∧ (add_fix st f).ref_lat.isSome ∧
      (add_fix st f).geo = st.geo ∧
      (add_fix st f).transformers_initialized = st.transformers_initialized := by
  unfold add_fix
  rw [if_pos h]
  cases hm : st.hmsl_mode <;> cases hh : f.height <;> cases hq : f.hMSL <;>
    simp_all [refData]

lemma add_fix_ref_of_unset (st : ExtState) (f : Fix) (h : st.ref_lat = none) :
    refData (add_fix st f) =
      (some f.lat, some f.lon, some (f.height.getD 0),
       some (st.geo.lla_to_ecef f.lat f.lon (f.height.getD 0))) ∧
      (add_fix st f).ref_lat.isSome ∧ (add_fix st f).geo = st.geo := by
  unfold add_fix
  rw [if_neg (by simp [h])]
  cases hm : st.hmsl_mode <;> cases hh : f.height <;> cases hq : f.hMSL <;>
    simp_all [refData]

lemma addFixes_ref_of_set (fs : List Fix) :
    ∀ st : ExtState, st.ref_lat.isSome →
      refData (addFixes st fs) = refData st ∧ (addFixes st fs).ref_lat.isSome := by
  induction fs with
  | nil => intro st h; exact ⟨rfl, h⟩
  | cons f rest ih =>
    intro st h
    have h1 := add_fix_ref_of_set st f h
    have h2 := ih (add_fix st f) h1.2.1
    refine ⟨?_, h2.2⟩
    calc refData (addFixes st (f :: rest)) = refData (addFixes (add_fix st f) rest) := rfl
      _ = refData (add_fix st f) := h2.1
      _ = refData st := h1.1

/-- Claim C1: over any sequence of `add_fix` calls on a fresh
`GnssExtrapolator`, the reference point (`ref_lat`, `ref_lon`,
`ref_height`, `ref_ecef`) is set from the geodetic coordinates of the first
fix ever added and is never changed by any later `add_fix`. (`extrapolate`
assigns no instance attribute at all in the source, so it is modelled as a
pure observer of the state and cannot change the reference point.) -/
theorem claim_C1 (geo : GeoBackend) (mb : Nat) (mode : HmslMode)
    (gfn : Option (ℝ → ℝ → ℝ)) (f : Fix) (fs : List Fix) :
    refData (addFixes (initExt geo mb mode gfn) (f :: fs)) =
      (some f.lat, some f.lon, some (f.height.getD 0),
       some (geo.lla_to_ecef f.lat f.lon (f.height.getD 0))) ∧
    ∀ g : Fix,
      refData (add_fix (addFixes (initExt geo mb mode gfn) (f :: fs)) g) =
        refData (addFixes (initExt geo mb mode gfn) (f :: fs)) := by
  have h0 : (initExt geo mb mode gfn).ref_lat = none := rfl
  have hset := add_fix_ref_of_unset (initExt geo mb mode gfn) f h0
  have hgeo : (initExt geo mb mode gfn).geo = geo := rfl
  have hkeep := addFixes_ref_of_set fs (add_fix (initExt geo mb mode gfn) f) hset.2.1
  have hmain : refData (addFixes (initExt geo mb mode gfn) (f :: fs)) =
      (some f.lat, some f.lon, some (f.height.getD 0),
       some (geo.lla_to_ecef f.lat f.lon (f.height.getD 0))) := by
    calc refData (addFixes (initExt geo mb mode gfn) (f :: fs))
        = refData (addFixes (add_fix (initExt geo mb mode gfn) f) fs) := rfl
      _ = refData (add_fix (initExt geo mb mode gfn) f) := hkeep.1
      _ = (some f.lat, some f.lon, some (f.height.getD 0),
           some (geo.lla_to_ecef f.lat f.lon (f.height.getD 0))) := by
          rw [hset.1, hgeo]
  refine ⟨hmain, ?_⟩
  intro g
  have hsome : (addFixes (initExt geo mb mode gfn) (f :: fs)).ref_lat.isSome := by
    have : (addFixes (initExt geo mb mode gfn) (f :: fs)).ref_lat = some f.lat := by
      have := congrArg (fun p => p.1) hmain
      simpa [refData] using this
    simp [this]
  exact (add_fix_ref_of_set _ g hsome).1

lemma add_fix_ref_isSome (st : ExtState) (f : Fix) : (add_fix st f).ref_lat.isSome := by
  by_cases h : st.ref_lat.isSome
  · exact (add_fix_ref_of_set st f h).2.1
  · have hn : st.ref_lat = none := by
      cases hx : st.ref_lat
      · rfl
      · rw [hx] at h; simp at h
    exact (add_fix_ref_of_unset st f hn).2.1

lemma addFixes_ref_none (geo : GeoBackend) (mb : Nat) (mode : HmslMode)
    (gfn : Option (ℝ → ℝ → ℝ)) (fs : List Fix)
    (h : (addFixes (initExt geo mb mode gfn) fs).ref_lat = none) : fs = [] := by
  cases fs with
  | nil => rfl
  | cons f rest =>
    exfalso
    have h1 : (addFixes (initExt geo mb mode gfn) (f :: rest)) =
        addFixes (add_fix (initExt geo mb mode gfn) f) rest := rfl
    have h2 := addFixes_ref_of_set rest (add_fix (initExt geo mb mode gfn) f)
      (add_fix_ref_isSome _ f)
    rw [← h1, h] at h2
    simp at h2

/-- Claim C2: on any state reachable by a sequence of `add_fix` calls on a
fresh `GnssExtrapolator`, if the reference point is unset or fewer than two
fixes are buffered, `extrapolate` returns the unavailable result `none`
(the guard returns before touching any geodesy, so nothing can raise). -/
theorem claim_C2 (geo : GeoBackend) (mb : Nat) (mode : HmslMode)
    (gfn : Option (ℝ → ℝ → ℝ)) (fs : List Fix) (t : ℝ)
    (h : (addFixes (initExt geo mb mode gfn) fs).ref_lat = none ∨
         (addFixes (initExt geo mb mode gfn) fs).buffer.length < 2) :
    extrapolate (addFixes (initExt geo mb mode gfn) fs) t = none := by
  have hlen : (addFixes (initExt geo mb mode gfn) fs).buffer.length < 2 := by
    rcases h with h | h
    · have hfs : fs = [] := addFixes_ref_none geo mb mode gfn fs h
      subst hfs
      simp [addFixes, initExt]
    · exact h
  unfold extrapolate
  rw [if_pos (Or.inr hlen)]

/-- A trivial transformer pair used to instantiate witnesses. -/
def tb : GeoBackend :=
  { lla_to_ecef := fun _ _ _ => ((0 : ℝ), (0 : ℝ), (0 : ℝ))
    ecef_to_lla := fun _ => ((0 : ℝ), (0 : ℝ), (0 : ℝ)) }

/-- Witness for C2: a fresh extrapolator (no fix added) has no reference
point, and `extrapolate` returns `none`. -/
theorem claim_C2_witness :
    (addFixes (initExt tb 2 HmslMode.geoid none) []).ref_lat = none ∧
    extrapolate (addFixes (initExt tb 2 HmslMode.geoid none) []) 0 = none :=
  ⟨rfl, claim_C2 tb 2 HmslMode.geoid none [] 0 (Or.inl rfl)⟩

/-- The ENU rotation matrix is orthogonal: applying the `enu_to_lla` matrix
after the `lla_to_enu` matrix is the identity on delta-ECEF vectors. -/
lemma rotENUt_rotENU (phi lam : ℝ) (d : ℝ × ℝ × ℝ) :
    rotENUt phi lam (rotENU phi lam d) = d := by
  obtain ⟨d1, d2, d3⟩ := d
  have hphi := Real.sin_sq_add_cos_sq phi
  have hlam := Real.sin_sq_add_cos_sq lam
  simp only [rotENU, rotENUt, Prod.mk.injEq]
  refine ⟨?_, ?_, ?_⟩
  · linear_combination (d1 * Real.cos lam ^ 2 + d2 * Real.sin lam * Real.cos lam) * hphi
      + d1 * hlam
  · linear_combination (d2 * Real.sin lam ^ 2 + d1 * Real.sin lam * Real.cos lam) * hphi
      + d2 * hlam
  · linear_combination d3 * hphi

/-- The other composition is also the identity on ENU vectors. -/
lemma rotENU_rotENUt (phi lam : ℝ) (v : ℝ × ℝ × ℝ) :
    rotENU phi lam (rotENUt phi lam v) = v := by
  obtain ⟨v1, v2, v3⟩ := v
  have hphi := Real.sin_sq_add_cos_sq phi
  have hlam := Real.sin_sq_add_cos_sq lam
  simp only [rotENU, rotENUt, Prod.mk.injEq]
  refine ⟨?_, ?_, ?_⟩
  · linear_combination v1 * hlam
  · linear_combination (v2 * Real.sin phi ^ 2 - v3 * Real.sin phi * Real.cos phi) * hlam
      + v2 * hphi
  · linear_combination (v3 * Real.cos phi ^ 2 - v2 * Real.sin phi * Real.cos phi) * hlam
      + v3 * hphi

lemma add3_sub3 (a b : ℝ × ℝ × ℝ) : add3 b (sub3 a b) = a := by
  obtain ⟨a1, a2, a3⟩ := a
  obtain ⟨b1, b2, b3⟩ := b
  simp only [add3, sub3, Prod.mk.injEq]
  refine ⟨by ring, by ring, by ring⟩

lemma add3_zero (a : ℝ × ℝ × ℝ) : add3 a ((0 : ℝ), (0 : ℝ), (0 : ℝ)) = a := by
  obtain ⟨a1, a2, a3⟩ := a
  simp [add3]

/-- Converting a geodetic point to ENU and straight back recovers the point,
as soon as the two external transformers invert each other at that point. -/
lemma enu_to_lla_lla_to_enu (geo : GeoBackend) (rlat rlon : ℝ) (rE : ℝ × ℝ × ℝ)
    (lat lon h : ℝ)
    (hrt : geo.ecef_to_lla (geo.lla_to_ecef lat lon h) = (lat, lon, h)) :
    enu_to_lla geo rlat rlon rE (lla_to_enu geo rlat rlon rE lat lon h).1
      (lla_to_enu geo rlat rlon rE lat lon h).2.1
      (lla_to_enu geo rlat rlon rE lat lon h).2.2 = (lat, lon, h) := by
  unfold enu_to_lla lla_to_enu
  rw [show ((rotENU (radians rlat) (radians rlon)
        (sub3 (geo.lla_to_ecef lat lon h) rE)).1,
      (rotENU (radians rlat) (radians rlon) (sub3 (geo.lla_to_ecef lat lon h) rE)).2.1,
      (rotENU (radians rlat) (radians rlon) (sub3 (geo.lla_to_ecef lat lon h) rE)).2.2)
      = rotENU (radians rlat) (radians rlon) (sub3 (geo.lla_to_ecef lat lon h) rE)
      from rfl]
  rw [rotENUt_rotENU, add3_sub3, hrt]

/-- Claim C6: with two identical buffered fixes and zero (or absent)
velocity, `extrapolate` at any strictly later target time returns the same
location as the last fix: forward ENU transform, zero-displacement
projection and inverse rotation compose to the identity on position. The
roundtrip hypothesis `hrt` is the documented contract of the mutually
inverse pyproj transformers at the fix's own coordinates. -/
theorem claim_C6 (st : ExtState) (t rlat rlon : ℝ) (rE : ℝ × ℝ × ℝ)
    (last prev : Fix) (rest : List Fix)
    (hinit : st.transformers_initialized = true)
    (hbuf : st.buffer.reverse = last :: prev :: rest)
    (h1 : st.ref_lat = some rlat) (h2 : st.ref_lon = some rlon)
    (h3 : st.ref_ecef = some rE)
    (hlat : prev.lat = last.lat) (hlon : prev.lon = last.lon)
    (hh : prev.height = last.height)
    (hvel : ∀ vE vN vD : ℝ, last.velE = some vE → last.velN = some vN →
      last.velD = some vD → vE = 0 ∧ vN = 0 ∧ vD = 0)
    (hdt : 0 < t - last.timestamp)
    (hrt : st.geo.ecef_to_lla
        (st.geo.lla_to_ecef last.lat last.lon (last.height.getD 0)) =
        (last.lat, last.lon, last.height.getD 0)) :
    ∃ res, extrapolate st t = some res ∧
      res.lat = last.lat ∧ res.lon = last.lon ∧
      res.height = some (last.height.getD 0) := by
  have hlen : ¬ st.buffer.length < 2 := by
    have := congrArg List.length hbuf
    simp at this
    omega
  unfold extrapolate
  rw [if_neg (by simp [hinit, hlen])]
  rw [hbuf, h1, h2, h3]
  simp only
  rw [if_neg (not_lt.mpr (le_of_lt hdt))]
  have henu : lla_to_enu st.geo rlat rlon rE prev.lat prev.lon (prev.height.getD 0)
      = lla_to_enu st.geo rlat rlon rE last.lat last.lon (last.height.getD 0) := by
    rw [hlat, hlon, hh]
  have hdisp :
      (match last.velE, last.velN, last.velD with
        | some vE, some vN, some vD => (vE * (t - last.timestamp),
            vN * (t - last.timestamp), vD * (t - last.timestamp))
        | _, _, _ =>
          let dt_pos := last.timestamp - prev.timestamp
          if dt_pos = 0 then ((0 : ℝ), (0 : ℝ), (0 : ℝ))
          else
            (((lla_to_enu st.geo rlat rlon rE last.lat last.lon
                (last.height.getD 0)).1 -
              (lla_to_enu st.geo rlat rlon rE prev.lat prev.lon
                (prev.height.getD 0)).1) / dt_pos * (t - last.timestamp),
             ((lla_to_enu st.geo rlat rlon rE last.lat last.lon
                (last.height.getD 0)).2.1 -
              (lla_to_enu st.geo rlat rlon rE prev.lat prev.lon
                (prev.height.getD 0)).2.1) / dt_pos * (t - last.timestamp),
             ((lla_to_enu st.geo rlat rlon rE last.lat last.lon
                (last.height.getD 0)).2.2 -
              (lla_to_enu st.geo rlat rlon rE prev.lat prev.lon
                (prev.height.getD 0)).2.2) / dt_pos * (t - last.timestamp)))
      = ((0 : ℝ), (0 : ℝ), (0 : ℝ)) := by
    rcases hE : last.velE with _ | vE
    · simp only [henu]
      split
      · rfl
      · simp
    · rcases hN : last.velN with _ | vN
      · simp only [henu]
        split
        · rfl
        · simp
      · rcases hD : last.velD with _ | vD
        · simp only [henu]
          split
          · rfl
          · simp
        · obtain ⟨z1, z2, z3⟩ := hvel vE vN vD hE hN hD
          simp [z1, z2, z3]
  simp only [hdisp, add3_zero]
  exact ⟨_, rfl, by
    rw [enu_to_lla_lla_to_enu st.geo rlat rlon rE last.lat last.lon
      (last.height.getD 0) hrt],
    by rw [enu_to_lla_lla_to_enu st.geo rlat rlon rE last.lat last.lon
      (last.height.getD 0) hrt],
    by rw [enu_to_lla_lla_to_enu st.geo rlat rlon rE last.lat last.lon
      (last.height.getD 0) hrt]⟩

/-- A fix at latitude 0, longitude 0, with no optional fields. -/
def c6fix : Fix :=
  ⟨0, none, 0, 0, none, none, none, none, none, none⟩

/-- A reachable extrapolator state buffering two identical fixes. -/
def c6state : ExtState := addFixes (initExt tb 2 HmslMode.geoid none) [c6fix, c6fix]

/-- Witness for C6 at two identical fixes with absent velocity and dt = 1. -/
theorem claim_C6_witness :
    ∃ res, extrapolate c6state 1 = some res ∧
      res.lat = c6fix.lat ∧ res.lon = c6fix.lon ∧
      res.height = some (c6fix.height.getD 0) := by
  refine claim_C6 c6state 1 0 0 ((0 : ℝ), (0 : ℝ), (0 : ℝ)) c6fix c6fix [] rfl rfl
    rfl rfl rfl rfl rfl rfl ?_ ?_ ?_
  · intro vE vN vD hE _ _
    simp [c6fix] at hE
  · norm_num [c6fix]
  · rfl

/-- The two fixes of the C4 counterexample: the last one carries velocity
fields, which the dt = 0 extrapolation path strips from its output. -/
def cfixPrev : Fix :=
  ⟨0, none, 0, 0, none, none, none, none, none, none⟩

def cfixLast : Fix :=
  ⟨0, none, 0, 0, none, none, some 5, some 0, some 0, none⟩

/-- A reachable extrapolator state with two buffered fixes, both at t = 0. -/
def c4state : ExtState :=
  addFixes (initExt tb 2 HmslMode.geoid none) [cfixPrev, cfixLast]

/-- Counterexample to C4 as stated: at `target_time` equal to the last
fix's timestamp, dt = 0 is non-positive, yet `extrapolate` does not return
the last fix unchanged — it takes the projection path and builds a fresh
record (here one without the velocity fields the last fix carries). Only
strictly negative dt triggers the `last.copy()` passthrough. -/
theorem claim_C4_counterexample :
    (0 : ℝ) - cfixLast.timestamp ≤ 0 ∧ extrapolate c4state 0 ≠ some cfixLast := by
  constructor
  · norm_num [cfixLast]
  · have hres : extrapolate c4state 0 =
        some ⟨0, none, 0, 0, some 0, none, none, none, none, none⟩ := by
      have hb : c4state.buffer = [cfixPrev, cfixLast] := rfl
      unfold extrapolate
      rw [hb]
      norm_num [c4state, addFixes, add_fix, initExt, bpush, tb, cfixPrev, cfixLast,
        enu_to_lla, ellipsoid_to_hmsl]
    rw [hres]
    simp [cfixLast]

/-- Claim C4, amended: with the reference set and at least two buffered
fixes, a *strictly negative* dt makes `extrapolate` return the last
buffered fix unchanged (the `last.copy()` branch); dt = 0 instead follows
the ordinary projection path. -/
theorem claim_C4_amended (st : ExtState) (t rlat rlon : ℝ) (rE : ℝ × ℝ × ℝ)
    (last prev : Fix) (rest : List Fix)
    (hinit : st.transformers_initialized = true)
    (hbuf : st.buffer.reverse = last :: prev :: rest)
    (h1 : st.ref_lat = some rlat) (h2 : st.ref_lon = some rlon)
    (h3 : st.ref_ecef = some rE)
    (hdt : t - last.timestamp < 0) :
    extrapolate st t = some last := by
  have hlen : ¬ st.buffer.length < 2 := by
    have := congrArg List.length hbuf
    simp at this
    omega
  unfold extrapolate
  rw [if_neg (by simp [hinit, hlen])]
  rw [hbuf, h1, h2, h3]
  simp only
  rw [if_pos hdt]

/-- Witness for the amended C4: target time strictly before the last fix. -/
theorem claim_C4_witness : extrapolate c4state (-1) = some cfixLast :=
  claim_C4_amended c4state (-1) 0 0 ((0 : ℝ), (0 : ℝ), (0 : ℝ)) cfixLast cfixPrev []
    rfl rfl rfl rfl rfl (by norm_num [cfixLast])

/-- The two pyproj transformers invert each other at the ECEF point `p`
(documented contract of the mutually inverse EPSG:4979 / EPSG:4978 pair). -/
def invAt (geo : GeoBackend) (p : ℝ × ℝ × ℝ) : Prop :=
  geo.lla_to_ecef (geo.ecef_to_lla p).1 (geo.ecef_to_lla p).2.1
    (geo.ecef_to_lla p).2.2 = p

/-- The ECEF point to which `extrapolate` projects when the last fix
carries velocity fields: reference ECEF plus the inverse-rotated sum of the
last fix's ENU position and the velocity displacement. -/
noncomputable def targetEcef (geo : GeoBackend) (rlat rlon : ℝ) (rE : ℝ × ℝ × ℝ)
    (last : Fix) (vE vN vD dt : ℝ) : ℝ × ℝ × ℝ :=
  add3 rE (rotENUt (radians rlat) (radians rlon)
    (add3 (lla_to_enu geo rlat rlon rE last.lat last.lon (last.height.getD 0))
      (vE * dt, vN * dt, vD * dt)))

lemma sub3_add3_left (a d : ℝ × ℝ × ℝ) : sub3 (add3 a d) a = d := by
  obtain ⟨a1, a2, a3⟩ := a
  obtain ⟨d1, d2, d3⟩ := d
  simp only [add3, sub3, Prod.mk.injEq]
  refine ⟨by ring, by ring, by ring⟩

lemma lla_to_enu_of_inv (geo : GeoBackend) (rlat rlon : ℝ) (rE p : ℝ × ℝ × ℝ)
    (hinv : invAt geo p) :
    lla_to_enu geo rlat rlon rE (geo.ecef_to_lla p).1 (geo.ecef_to_lla p).2.1
      (geo.ecef_to_lla p).2.2 =
      rotENU (radians rlat) (radians rlon) (sub3 p rE) := by
  unfold lla_to_enu
  rw [hinv]

/-- Evaluation of the velocity branch of `extrapolate`: with the reference
set, two buffered fixes, velocity fields on the last fix and dt ≥ 0, the
result is the record obtained by converting `targetEcef` back to geodetic
coordinates. -/
lemma extrapolate_velocity (st : ExtState) (t rlat rlon vE vN vD : ℝ)
    (rE : ℝ × ℝ × ℝ) (last prev : Fix) (rest : List Fix)
    (hinit : st.transformers_initialized = true)
    (hbuf : st.buffer.reverse = last :: prev :: rest)
    (h1 : st.ref_lat = some rlat) (h2 : st.ref_lon = some rlon)
    (h3 : st.ref_ecef = some rE)
    (hE : last.velE = some vE) (hN : last.velN = some vN) (hD : last.velD = some vD)
    (hdt : 0 ≤ t - last.timestamp) :
    extrapolate st t = some
      { timestamp := t
        gnss_time := none
        lat := (st.geo.ecef_to_lla
          (targetEcef st.geo rlat rlon rE last vE vN vD (t - last.timestamp))).1
        lon := (st.geo.ecef_to_lla
          (targetEcef st.geo rlat rlon rE last vE vN vD (t - last.timestamp))).2.1
        height := some ((st.geo.ecef_to_lla
          (targetEcef st.geo rlat rlon rE last vE vN vD (t - last.timestamp))).2.2)
        hMSL := ellipsoid_to_hmsl st
          (st.geo.ecef_to_lla
            (targetEcef st.geo rlat rlon rE last vE vN vD (t - last.timestamp))).1
          (st.geo.ecef_to_lla
            (targetEcef st.geo rlat rlon rE last vE vN vD (t - last.timestamp))).2.1
          (st.geo.ecef_to_lla
            (targetEcef st.geo rlat rlon rE last vE vN vD (t - last.timestamp))).2.2
        velE := none
        velN := none
        velD := none
        quality := none } := by
  have hlen : ¬ st.buffer.length < 2 := by
    have := congrArg List.length hbuf
    simp at this
    omega
  unfold extrapolate
  rw [if_neg (by simp [hinit, hlen])]
  rw [hbuf, h1, h2, h3]
  simp only
  rw [if_neg (not_lt.mpr hdt)]
  rw [hE, hN, hD]
  rfl

/-- Claim C5: (general part) whenever the last buffered fix carries the
three velocity fields and dt > 0, the ENU displacement of the extrapolated
position from the last fix is exactly velocity times dt, component-wise in
east/north/up (the fix's `velE`, `velN`, `velD` fields being its
east/north/up velocity in the spec's data model); (concrete part) with
velocity east = 10 m/s, north = 0, up = 0 and dt = 1 s over a reference at
latitude 0, longitude 0, the ENU east offset of the result from the last
fix is 10 m within 1e-6, and the extrapolated longitude lies east of the
last fix's longitude. The `invAt` hypotheses are the documented
inverse-pair contract of the pyproj transformers at the projected point;
the sign hypothesis on `ecef_to_lla` is the documented geodetic meaning of
longitude (a point with x > 0, y > 0 has positive longitude), and
`lla_to_ecef 0 0 0` lying on the positive x-axis is the documented WGS84
image of the reference origin. -/
theorem claim_C5 :
    (∀ (st : ExtState) (t rlat rlon vE vN vD : ℝ) (rE : ℝ × ℝ × ℝ)
       (last prev : Fix) (rest : List Fix),
       st.transformers_initialized = true →
       st.buffer.reverse = last :: prev :: rest →
       st.ref_lat = some rlat → st.ref_lon = some rlon → st.ref_ecef = some rE →
       last.velE = some vE → last.velN = some vN → last.velD = some vD →
       0 < t - last.timestamp →
       invAt st.geo (targetEcef st.geo rlat rlon rE last vE vN vD
         (t - last.timestamp)) →
       ∃ res, extrapolate st t = some res ∧
         sub3 (lla_to_enu st.geo rlat rlon rE res.lat res.lon (res.height.getD 0))
           (lla_to_enu st.geo rlat rlon rE last.lat last.lon (last.height.getD 0)) =
           (vE * (t - last.timestamp), vN * (t - last.timestamp),
            vD * (t - last.timestamp))) ∧
    (∀ (st : ExtState) (t c : ℝ) (last prev : Fix) (rest : List Fix),
       st.transformers_initialized = true →
       st.buffer.reverse = last :: prev :: rest →
       st.ref_lat = some 0 → st.ref_lon = some 0 →
       st.ref_ecef = some (st.geo.lla_to_ecef 0 0 0) →
       last.lat = 0 → last.lon = 0 → last.height.getD 0 = 0 →
       last.velE = some 10 → last.velN = some 0 → last.velD = some 0 →
       t - last.timestamp = 1 →
       st.geo.lla_to_ecef 0 0 0 = (c, 0, 0) → 0 < c →
       (∀ x y z : ℝ, 0 < x → 0 < y → 0 < (st.geo.ecef_to_lla (x, y, z)).2.1) →
       invAt st.geo (c, 10, 0) →
       ∃ res, extrapolate st t = some res ∧
         |(sub3 (lla_to_enu st.geo 0 0 (st.geo.lla_to_ecef 0 0 0) res.lat res.lon
             (res.height.getD 0))
           (lla_to_enu st.geo 0 0 (st.geo.lla_to_ecef 0 0 0) last.lat last.lon
             (last.height.getD 0))).1 - 10| ≤ 1e-6 ∧
         last.lon < res.lon) := by
  constructor
  · intro st t rlat rlon vE vN vD rE last prev rest hinit hbuf h1 h2 h3 hE hN hD
      hdt hinv
    refine ⟨_, extrapolate_velocity st t rlat rlon vE vN vD rE last prev rest
      hinit hbuf h1 h2 h3 hE hN hD (le_of_lt hdt), ?_⟩
    show sub3 (lla_to_enu st.geo rlat rlon rE
        (st.geo.ecef_to_lla
          (targetEcef st.geo rlat rlon rE last vE vN vD (t - last.timestamp))).1
        (st.geo.ecef_to_lla
          (targetEcef st.geo rlat rlon rE last vE vN vD (t - last.timestamp))).2.1
        (st.geo.ecef_to_lla
          (targetEcef st.geo rlat rlon rE last vE vN vD (t - last.timestamp))).2.2)
      (lla_to_enu st.geo rlat rlon rE last.lat last.lon (last.height.getD 0)) =
      (vE * (t - last.timestamp), vN * (t - last.timestamp),
       vD * (t - last.timestamp))
    rw [lla_to_enu_of_inv st.geo rlat rlon rE _ hinv]
    unfold targetEcef
    rw [sub3_add3_left, rotENU_rotENUt, sub3_add3_left]
  · intro st t c last prev rest hinit hbuf h1 h2 h3 hlat0 hlon0 hh0 hE hN hD
      hdt1 hc hcpos hlonsign hinv
    have hdt0 : (0 : ℝ) ≤ t - last.timestamp := by rw [hdt1]; norm_num
    have htarget : targetEcef st.geo 0 0 (st.geo.lla_to_ecef 0 0 0) last 10 0 0
        (t - last.timestamp) = (c, 10, 0) := by
      rw [hdt1]
      unfold targetEcef lla_to_enu
      rw [hlat0, hlon0, hh0, hc]
      norm_num [radians, rotENU, rotENUt, add3, sub3]
    have hinvT : invAt st.geo (targetEcef st.geo 0 0 (st.geo.lla_to_ecef 0 0 0)
        last 10 0 0 (t - last.timestamp)) := by
      rw [htarget]; exact hinv
    refine ⟨_, extrapolate_velocity st t 0 0 10 0 0 (st.geo.lla_to_ecef 0 0 0)
      last prev rest hinit hbuf h1 h2 h3 hE hN hD hdt0, ?_, ?_⟩
    · show |(sub3 (lla_to_enu st.geo 0 0 (st.geo.lla_to_ecef 0 0 0)
          (st.geo.ecef_to_lla (targetEcef st.geo 0 0 (st.geo.lla_to_ecef 0 0 0)
            last 10 0 0 (t - last.timestamp))).1
          (st.geo.ecef_to_lla (targetEcef st.geo 0 0 (st.geo.lla_to_ecef 0 0 0)
            last 10 0 0 (t - last.timestamp))).2.1
          (st.geo.ecef_to_lla (targetEcef st.geo 0 0 (st.geo.lla_to_ecef 0 0 0)
            last 10 0 0 (t - last.timestamp))).2.2)
        (lla_to_enu st.geo 0 0 (st.geo.lla_to_ecef 0 0 0) last.lat last.lon
          (last.height.getD 0))).1 - 10| ≤ 1e-6
      rw [lla_to_enu_of_inv st.geo 0 0 _ _ hinvT]
      unfold targetEcef
      rw [sub3_add3_left, rotENU_rotENUt, sub3_add3_left]
      rw [hdt1]
      norm_num
    · show last.lon < (st.geo.ecef_to_lla (targetEcef st.geo 0 0
        (st.geo.lla_to_ecef 0 0 0) last 10 0 0 (t - last.timestamp))).2.1
      rw [htarget, hlon0]
      exact hlonsign c 10 0 hcpos (by norm_num)

/-- A transformer pair satisfying, at the points the C5 witness touches,
the inverse-pair contract and the documented longitude semantics. -/
def W5 : GeoBackend :=
  { lla_to_ecef := fun _ lon _ => ((1 : ℝ), lon, (0 : ℝ))
    ecef_to_lla := fun p => ((0 : ℝ), p.2.1, (0 : ℝ)) }

def w5prev : Fix := ⟨-1, none, 0, 0, none, none, none, none, none, none⟩

def w5last : Fix := ⟨0, none, 0, 0, none, none, some 10, some 0, some 0, none⟩

/-- A reachable state whose last fix moves east at 10 m/s. -/
def w5state : ExtState := addFixes (initExt W5 2 HmslMode.geoid none) [w5prev, w5last]

/-- Witness for C5: both parts instantiated at `w5state` with dt = 1. -/
theorem claim_C5_witness :
    (∃ res, extrapolate w5state 1 = some res ∧
      sub3 (lla_to_enu w5state.geo 0 0 ((1 : ℝ), (0 : ℝ), (0 : ℝ)) res.lat res.lon
          (res.height.getD 0))
        (lla_to_enu w5state.geo 0 0 ((1 : ℝ), (0 : ℝ), (0 : ℝ)) w5last.lat
          w5last.lon (w5last.height.getD 0)) =
        (10 * (1 - w5last.timestamp), 0 * (1 - w5last.timestamp),
         0 * (1 - w5last.timestamp))) ∧
    (∃ res, extrapolate w5state 1 = some res ∧
      |(sub3 (lla_to_enu w5state.geo 0 0 (w5state.geo.lla_to_ecef 0 0 0) res.lat
          res.lon (res.height.getD 0))
        (lla_to_enu w5state.geo 0 0 (w5state.geo.lla_to_ecef 0 0 0) w5last.lat
          w5last.lon (w5last.height.getD 0))).1 - 10| ≤ 1e-6 ∧
      w5last.lon < res.lon) := by
  have htgt : targetEcef w5state.geo 0 0 ((1 : ℝ), (0 : ℝ), (0 : ℝ)) w5last 10 0 0
      (1 - w5last.timestamp) = ((1 : ℝ), (10 : ℝ), (0 : ℝ)) := by
    show targetEcef W5 0 0 ((1 : ℝ), (0 : ℝ), (0 : ℝ)) w5last 10 0 0
      (1 - w5last.timestamp) = ((1 : ℝ), (10 : ℝ), (0 : ℝ))
    norm_num [targetEcef, lla_to_enu, W5, w5last, rotENU, rotENUt, add3, sub3,
      radians]
  constructor
  · refine claim_C5.1 w5state 1 0 0 10 0 0 ((1 : ℝ), (0 : ℝ), (0 : ℝ)) w5last
      w5prev [] rfl rfl rfl rfl rfl rfl rfl rfl (by norm_num [w5last]) ?_
    rw [show invAt w5state.geo (targetEcef w5state.geo 0 0
        ((1 : ℝ), (0 : ℝ), (0 : ℝ)) w5last 10 0 0 (1 - w5last.timestamp)) =
        invAt w5state.geo ((1 : ℝ), (10 : ℝ), (0 : ℝ)) from by rw [htgt]]
    rfl
  · refine claim_C5.2 w5state 1 1 w5last w5prev [] rfl rfl rfl rfl rfl rfl rfl
      rfl rfl rfl rfl (by norm_num [w5last]) rfl (by norm_num) ?_ rfl
    intro x y z _ hy
    exact hy

/-! ## Ingest stage (ublox_gnss_worker.py), extrapolator worker and NMEA
relay (gnss_extrapolator_worker.py, ntrip_client_worker.py)

`main.py` constructs every queue as `ThreadSafeDeque(maxlen=100)`, so the
pushes below use capacity 100. -/

/-- A parsed GNGGA attribute value as the validation code sees it: `none`
models a value that `float()` rejects (Python `None`, the empty string, or
a non-numeric string), `some x` a value convertible to the float `x`. -/
abbrev NVal := Option ℝ

/-- A parsed GNGGA record. The outer `Option` on each field models
`hasattr`: `none` means the attribute is missing. -/
structure Gngga where
  time : Option String
  lat : Option NVal
  lon : Option NVal
  quality : Option ℤ

/-- The `hasattr` guard of the GNGGA branch. -/
def hasGnggaAttrs (r : Gngga) : Bool :=
  r.time.isSome && r.lat.isSome && r.lon.isSome && r.quality.isSome

/-- The lat/lon validation block: missing, empty or non-numeric values and
out-of-range coordinates yield `none` (the code logs and `continue`s);
otherwise the validated floats are returned. -/
noncomputable def validateLatLon (latv lonv : NVal) : Option (ℝ × ℝ) :=
  match latv, lonv with
  | some lat, some lon =>
    if -90 ≤ lat ∧ lat ≤ 90 ∧ -180 ≤ lon ∧ lon ≤ 180 then some (lat, lon) else none
  | _, _ => none

/-- The `gnss_data` dict built for a validated GNGGA record. -/
def mkGnssData (now : ℝ) (r : Gngga) (lat lon : ℝ) : Fix :=
  { timestamp := now
    gnss_time := r.time
    lat := lat
    lon := lon
    height := none
    hMSL := none
    velE := none
    velN := none
    velD := none
    quality := r.quality }

/-- One GNGGA iteration of `UbloxGnssWorker._worker_loop`, acting on the
raw-fix queue (`gnss_queue`) and the NMEA queue: a record passing the
attribute guard and validation is pushed to both (the dict to the raw-fix
queue, the raw sentence to the NMEA queue); a record failing validation is
dropped entirely (`continue` skips the NMEA append too); a record failing
the attribute guard falls through to the NMEA append alone. -/
noncomputable def ingestStep (rawQ : List Fix) (nmeaQ : List String) (r : Gngga)
    (raw : String) (now : ℝ) : List Fix × List String :=
  if hasGnggaAttrs r then
    match validateLatLon (r.lat.getD none) (r.lon.getD none) with
    | some (lat, lon) =>
      (bpush (some 100) rawQ (mkGnssData now r lat lon), bpush (some 100) nmeaQ raw)
    | none => (rawQ, nmeaQ)
  else (rawQ, bpush (some 100) nmeaQ raw)

/-- Output record pushed to the publish queue (`gnss_extra_queue`). -/
structure OutRec where
  timestamp : ℝ
  gnss_time : Option String
  lat : ℝ
  lon : ℝ
  quality : Option ℤ
  extrapolated : Bool

/-- One iteration of `GnssExtrapolatorWorker._worker_loop`: if the raw-fix
queue is non-empty, pop one dict, re-validate its coordinates (the dict
stores floats, so only the range check can fire), and on success call
`add_fix` and push the measured record to the publish queue; on an empty
raw queue, extrapolate to `now` and push an extrapolated record only when
one is available. -/
noncomputable def extraWorkerStep (st : ExtState) (rawQ : List Fix)
    (outQ : List OutRec) (now : ℝ) : ExtState × List Fix × List OutRec :=
  match rawQ with
  | d :: rest =>
    if -90 ≤ d.lat ∧ d.lat ≤ 90 ∧ -180 ≤ d.lon ∧ d.lon ≤ 180 then
      (add_fix st d, rest,
       bpush (some 100) outQ
         { timestamp := d.timestamp
           gnss_time := d.gnss_time
           lat := d.lat
           lon := d.lon
           quality := d.quality
           extrapolated := false })
    else (st, rest, outQ)
  | [] =>
    match extrapolate st now with
    | some ex =>
      (st, [],
       bpush (some 100) outQ
         { timestamp := ex.timestamp
           gnss_time := none
           lat := ex.lat
           lon := ex.lon
           quality := none
           extrapolated := true })
    | none => (st, [], outQ)

/-- Claim C8: a polled GNGGA record whose latitude or longitude is missing,
non-numeric, or out of range never enters the raw-fix queue (the ingest
stage drops it), and even a raw-fix-queue entry with out-of-range
coordinates is discarded by the extrapolator worker without an `add_fix`
call and without touching the publish queue. -/
theorem claim_C8 :
    (∀ (rawQ : List Fix) (nmeaQ : List String) (r : Gngga) (raw : String) (now : ℝ),
       (r.lat = none ∨ r.lon = none ∨ r.lat = some none ∨ r.lon = some none ∨
        (∀ lat : ℝ, r.lat = some (some lat) → lat < -90 ∨ 90 < lat) ∨
        (∀ lon : ℝ, r.lon = some (some lon) → lon < -180 ∨ 180 < lon)) →
       (ingestStep rawQ nmeaQ r raw now).1 = rawQ) ∧
    (∀ (st : ExtState) (rest : List Fix) (outQ : List OutRec) (d : Fix) (now : ℝ),
       (d.lat < -90 ∨ 90 < d.lat ∨ d.lon < -180 ∨ 180 < d.lon) →
       extraWorkerStep st (d :: rest) outQ now = (st, rest, outQ)) := by
  constructor
  · intro rawQ nmeaQ r raw now hbad
    unfold ingestStep
    by_cases hattr : hasGnggaAttrs r
    · rw [if_pos hattr]
      have hval : validateLatLon (r.lat.getD none) (r.lon.getD none) = none := by
        unfold validateLatLon
        rcases hlat : r.lat with _ | latv
        · rfl
        · rcases hlon : r.lon with _ | lonv
          · simp only [Option.getD_some]
            rcases latv with _ | lat <;> rfl
          · simp only [Option.getD_some]
            rcases latv with _ | lat
            · rfl
            · rcases lonv with _ | lon
              · rfl
              · rcases hbad with h | h | h | h | h | h
                · rw [hlat] at h; exact absurd h (by simp)
                · rw [hlon] at h; exact absurd h (by simp)
                · rw [hlat] at h; exact absurd h (by simp)
                · rw [hlon] at h; exact absurd h (by simp)
                · have := h lat (by rw [hlat])
                  show (if -90 ≤ lat ∧ lat ≤ 90 ∧ -180 ≤ lon ∧ lon ≤ 180
                    then some ((lat, lon) : ℝ × ℝ) else none) = none
                  rw [if_neg (by
                    intro hr
                    rcases this with h5 | h5 <;> linarith [hr.1, hr.2.1])]
                · have := h lon (by rw [hlon])
                  show (if -90 ≤ lat ∧ lat ≤ 90 ∧ -180 ≤ lon ∧ lon ≤ 180
                    then some ((lat, lon) : ℝ × ℝ) else none) = none
                  rw [if_neg (by
                    intro hr
                    rcases this with h5 | h5 <;> linarith [hr.2.2.1, hr.2.2.2])]
      rw [hval]
    · rw [if_neg hattr]
  · intro st rest outQ d now hbad
    have hng : ¬(-90 ≤ d.lat ∧ d.lat ≤ 90 ∧ -180 ≤ d.lon ∧ d.lon ≤ 180) := by
      intro hr
      rcases hbad with h | h | h | h <;> linarith [hr.1, hr.2.1, hr.2.2.1, hr.2.2.2]
    simp only [extraWorkerStep]
    rw [if_neg hng]

/-- A record with latitude 200.0, as in the spec's testable property. -/
def c8rec : Gngga :=
  { time := some "071558.30"
    lat := some (some 200)
    lon := some (some 0)
    quality := some 1 }

/-- A raw-queue dict with latitude 200.0. -/
def c8fix : Fix := ⟨0, none, 200, 0, none, none, none, none, none, none⟩

/-- Witness for C8: latitude 200.0 is dropped by the ingest stage, and the
extrapolator worker neither updates its state nor pushes anything for it. -/
theorem claim_C8_witness :
    (ingestStep [] [] c8rec "$GNGGA" 0).1 = [] ∧
    extraWorkerStep (initExt tb 2 HmslMode.geoid none) [c8fix] [] 0 =
      (initExt tb 2 HmslMode.geoid none, [], []) := by
  constructor
  · refine claim_C8.1 [] [] c8rec "$GNGGA" 0 ?_
    refine Or.inr (Or.inr (Or.inr (Or.inr (Or.inl ?_))))
    intro lat h
    have : lat = 200 := by simpa [c8rec] using h.symm
    right
    rw [this]
    norm_num
  · refine claim_C8.2 (initExt tb 2 HmslMode.geoid none) [] [] c8fix 0 ?_
    right
    left
    show (90 : ℝ) < c8fix.lat
    norm_num [c8fix]

/-- One timer tick of `NTRIPClientWorker._worker_loop`, restricted to the
NMEA side: if the NMEA queue is non-empty, popleft one sentence and send it
(`send_nmea`); the `sent` list records the sentences sent so far. -/
def relayTick (nmeaQ : List String) (sent : List String) :
    List String × List String :=
  match nmeaQ with
  | [] => ([], sent)
  | x :: rest => (rest, sent ++ [x])

/-- A valid GNGGA record used for the C7 scenario. -/
def c7rec : Gngga :=
  { time := some "071558.30"
    lat := some (some 1)
    lon := some (some 2)
    quality := some 1 }

/-- The NMEA queue after the ingest stage accepts two valid fixes (raw
sentences "GA" then "GB") with no relay tick in between. -/
noncomputable def c7nmea : List String :=
  (ingestStep (ingestStep [] [] c7rec "GA" 0).1 (ingestStep [] [] c7rec "GA" 0).2
    c7rec "GB" 0).2

lemma c7_validate :
    validateLatLon (c7rec.lat.getD none) (c7rec.lon.getD none) =
      some ((1 : ℝ), (2 : ℝ)) := by
  show (if (-90 : ℝ) ≤ 1 ∧ (1 : ℝ) ≤ 90 ∧ (-180 : ℝ) ≤ 2 ∧ (2 : ℝ) ≤ 180
    then some (((1 : ℝ), (2 : ℝ))) else none) = some (1, 2)
  rw [if_pos (by norm_num)]

lemma c7_step1 : ingestStep [] [] c7rec "GA" 0 =
    ([mkGnssData 0 c7rec 1 2], ["GA"]) := by
  unfold ingestStep
  rw [if_pos (show hasGnggaAttrs c7rec = true from rfl), c7_validate]
  rfl

lemma c7_step2 : ingestStep [mkGnssData 0 c7rec 1 2] ["GA"] c7rec "GB" 0 =
    ([mkGnssData 0 c7rec 1 2, mkGnssData 0 c7rec 1 2], ["GA", "GB"]) := by
  unfold ingestStep
  rw [if_pos (show hasGnggaAttrs c7rec = true from rfl), c7_validate]
  rfl

/-- Counterexample to C7 as stated: the code has no single-slot
last-write-wins cell between ingest and the correction relay. After two
accepted fixes ("GA" then "GB") with no relay tick in between, the relay
tick sends the *oldest* sentence "GA", not the newest "GB", and the newer
sentence stays queued behind rather than having superseded the old one. -/
theorem claim_C7_counterexample :
    c7nmea = ["GA", "GB"] ∧
    (relayTick c7nmea []).2 = ["GA"] ∧
    (relayTick c7nmea []).1 = ["GB"] ∧
    (relayTick c7nmea []).2 ≠ ["GB"] := by
  have hn : c7nmea = ["GA", "GB"] := by
    unfold c7nmea
    simp only [c7_step1]
    show (ingestStep [mkGnssData 0 c7rec 1 2] ["GA"] c7rec "GB" 0).2 = _
    rw [c7_step2]
  refine ⟨hn, ?_, ?_, ?_⟩
  · rw [hn]; rfl
  · rw [hn]; rfl
  · rw [hn]
    decide

/-- Claim C7, amended: every valid fix accepted by the ingest stage has its
raw NMEA sentence appended to a bounded FIFO queue (a `ThreadSafeDeque` of
capacity 100, drop-oldest on overflow) that the correction relay reads;
each relay timer tick sends the *oldest* queued sentence, if any, leaving
newer sentences queued behind — values are replaced only by capacity
eviction, not by a last-write-wins slot. -/
theorem claim_C7_amended :
    (∀ (rawQ : List Fix) (nmeaQ : List String) (r : Gngga) (raw : String)
       (now lat lon : ℝ),
       hasGnggaAttrs r = true →
       validateLatLon (r.lat.getD none) (r.lon.getD none) = some (lat, lon) →
       (ingestStep rawQ nmeaQ r raw now).2 = bpush (some 100) nmeaQ raw) ∧
    (∀ sent : List String, relayTick [] sent = ([], sent)) ∧
    (∀ (x : String) (rest sent : List String),
       relayTick (x :: rest) sent = (rest, sent ++ [x])) := by
  refine ⟨?_, fun sent => rfl, fun x rest sent => rfl⟩
  intro rawQ nmeaQ r raw now lat lon hattr hval
  unfold ingestStep
  rw [if_pos hattr, hval]

/-- Witness for the amended C7 at a concrete accepted fix and a concrete
relay tick. -/
theorem claim_C7_witness :
    (ingestStep [] [] c7rec "GA" 0).2 = bpush (some 100) [] "GA" ∧
    relayTick ["GA", "GB"] [] = (["GB"], ["GA"]) :=
  ⟨claim_C7_amended.1 [] [] c7rec "GA" 0 1 2 rfl c7_validate,
   claim_C7_amended.2.2 "GA" ["GB"] []⟩

/-! ## TcpPublisher.send_to_all (tcp_publisher.py) -/

/-- Python `list.remove`: removes the first occurrence. -/
def removeFirst [DecidableEq κ] (l : List κ) (a : κ) : List κ :=
  match l with
  | [] => []
  | x :: xs => if x = a then xs else x :: removeFirst xs a

/-- The loop of `send_to_all`: iterates over the elements of a snapshot of
the client list (`self.clients[:]`); `ok c` models whether `sendall`
succeeds on connection `c`. A failing send removes that connection from the
live list (`self.clients.remove(client)`) and the loop continues with the
remaining snapshot elements. Returns the final live list together with the
attempted sends `(connection, success)` in order. -/
def sendLoop [DecidableEq κ] (ok : κ → Bool) :
    List κ → List κ → List κ × List (κ × Bool)
  | [], cur => (cur, [])
  | c :: rest, cur =>
    if ok c then
      ((sendLoop ok rest cur).1, (c, true) :: (sendLoop ok rest cur).2)
    else
      ((sendLoop ok rest (removeFirst cur c)).1,
       (c, false) :: (sendLoop ok rest (removeFirst cur c)).2)

/-- `TcpPublisher.send_to_all`: the snapshot and the live list start equal. -/
def send_to_all [DecidableEq κ] (ok : κ → Bool) (clients : List κ) :
    List κ × List (κ × Bool) :=
  sendLoop ok clients clients

lemma removeFirst_append_cons [DecidableEq κ] (pre rest : List κ) (c : κ)
    (hc : c ∉ pre) : removeFirst (pre ++ c :: rest) c = pre ++ rest := by
  induction pre with
  | nil => simp [removeFirst]
  | cons x xs ih =>
    have hx : ¬ x = c := by
      intro h
      exact hc (by rw [h]; exact List.mem_cons_self c xs)
    have hxs : c ∉ xs := fun h => hc (List.mem_cons_of_mem x h)
    show (if x = c then xs ++ c :: rest else x :: removeFirst (xs ++ c :: rest) c)
      = x :: xs ++ rest
    rw [if_neg hx, ih hxs]
    rfl

lemma sendLoop_spec [DecidableEq κ] (ok : κ → Bool) (snap : List κ) :
    ∀ pre : List κ, (pre ++ snap).Nodup →
      sendLoop ok snap (pre ++ snap) =
        (pre ++ snap.filter ok, snap.map (fun c => (c, ok c))) := by
  induction snap with
  | nil => intro pre h; simp [sendLoop]
  | cons c rest ih =>
    intro pre h
    have hnodup := h
    rw [List.nodup_append] at hnodup
    have hcpre : c ∉ pre := fun hcp =>
      hnodup.2.2 hcp (List.mem_cons_self c rest)
    by_cases hc : ok c
    · have hpre2 : ((pre ++ [c]) ++ rest).Nodup := by
        simpa [List.append_assoc] using h
      have hih := ih (pre ++ [c]) hpre2
      show (if ok c then _ else _) = _
      rw [if_pos hc]
      rw [show pre ++ c :: rest = (pre ++ [c]) ++ rest by simp]
      rw [hih]
      simp [List.filter_cons, hc]
    · have hsub : (pre ++ rest).Sublist (pre ++ c :: rest) :=
        List.Sublist.append_left (List.sublist_cons_self c rest) pre
      have hpre2 : (pre ++ rest).Nodup := h.sublist hsub
      have hrm : removeFirst (pre ++ c :: rest) c = pre ++ rest :=
        removeFirst_append_cons pre rest c hcpre
      have hih := ih pre hpre2
      show (if ok c then _ else _) = _
      rw [if_neg hc, hrm, hih]
      simp [List.filter_cons, hc]

/-- Claim C9: broadcasting over a duplicate-free client list attempts the
write on every connection of the iterated snapshot, in order — one
connection's failure never aborts or skips delivery to the others — and
removes exactly the failing connections from the live set. -/
theorem claim_C9 {κ : Type} [DecidableEq κ] (ok : κ → Bool) (clients : List κ)
    (hnd : clients.Nodup) :
    (send_to_all ok clients).1 = clients.filter ok ∧
    (send_to_all ok clients).2 = clients.map (fun c => (c, ok c)) := by
  have h := sendLoop_spec ok clients [] (by simpa using hnd)
  simp only [List.nil_append] at h
  unfold send_to_all
  rw [h]
  exact ⟨rfl, rfl⟩

/-- The send outcome of the C9 witness: connection 2 fails, 1 and 3 succeed. -/
def ok9 : ℕ → Bool := fun n => n != 2

/-- Witness for C9 with three clients, the middle one failing. -/
theorem claim_C9_witness :
    List.Nodup [1, 2, 3] ∧
    (send_to_all ok9 [1, 2, 3]).1 = [1, 3] ∧
    (send_to_all ok9 [1, 2, 3]).2 = [(1, true), (2, false), (3, true)] := by
  have h := claim_C9 ok9 [1, 2, 3] (by decide)
  refine ⟨by decide, ?_, ?_⟩
  · rw [h.1]; decide
  · rw [h.2]; decide

end GnssStreamer
